import Mathlib

/-!
Verification of the VideoDownloader repository's transcoder
(`scripts/optimizer.py`) against its specification.

The Python code is shallowly embedded: pure helpers (`format_size`,
`build_ffmpeg_cmd`'s scale filter, path/stem manipulation) become Lean
functions; subprocess calls are modelled by an environment recording each
tool invocation's outcome; Python exceptions become `Except`; Python
floats are modelled as exact rationals.
-/

namespace Optimizer

/-! ## Path model (Python `pathlib.Path`)

A path is its list of components.  `name` is the final component.
`pySuffix`/`pyStem` follow CPython's `PurePath.suffix`/`PurePath.stem`:
find the last `.` in the name; if its index `i` satisfies
`0 < i < len(name) - 1` the suffix is `name[i:]` and the stem `name[:i]`,
otherwise the suffix is empty and the stem the whole name. -/

structure PyPath where
  parts : List String
  deriving DecidableEq, Repr

def PyPath.name (p : PyPath) : String := p.parts.getLastD ""

/-- Index of the last `'.'` in a character list (CPython `str.rfind('.')`,
as `Option`). -/
def rfindDot : List Char → Option Nat
  | [] => none
  | c :: cs =>
    match rfindDot cs with
    | some j => some (j + 1)
    | none => if c = '.' then some 0 else none

def pySuffixCs (name : List Char) : List Char :=
  match rfindDot name with
  | some i => if 0 < i ∧ i < name.length - 1 then name.drop i else []
  | none => []

def pyStemCs (name : List Char) : List Char :=
  match rfindDot name with
  | some i => if 0 < i ∧ i < name.length - 1 then name.take i else name
  | none => name

def pySuffix (s : String) : String := String.mk (pySuffixCs s.toList)

def pyStem (s : String) : String := String.mk (pyStemCs s.toList)

/-! ## Configuration constants (optimizer.py lines 11-33) -/

def VIDEO_EXTS : List String := [".mp4", ".mov", ".mkv", ".webm", ".avi", ".m4v"]

def CRF : Nat := 27

def PRESET : String := "slow"

/-- `MAX_HEIGHT = 540` (`None` = no rescale). -/
def MAX_HEIGHT : Option Int := some 540

def AUDIO_BITRATE : String := "64k"

def TARGET_FPS : Option Nat := some 24

def THUMBNAIL_EXT : String := ".webp"

def THUMBNAIL_QUALITY : Nat := 85

def THUMBNAIL_WIDTH : Nat := 1280

def THUMBNAIL_HEIGHT : Nat := 720

/-- `OUTPUT_DIR = PROJECT_ROOT / "data" / "processed"`; the project root
prefix is left implicit, only the fixed tail matters to the claims. -/
def OUTPUT_DIR : PyPath := ⟨["data", "processed"]⟩

/-! ## Discovery (optimizer.py line 167)

`main` filters `INPUT_DIR.rglob("*")` — every entry of the tree, files
and directories alike — keeping those with `p.suffix.lower()` in
`VIDEO_EXTS`.  The recursive listing is the environment; each entry
records its path and whether it is a directory (the code never asks). -/

structure Entry where
  path : PyPath
  isDir : Bool
  deriving DecidableEq, Repr

/-- Python `str.lower()`; the compared strings are ASCII extensions, on
which per-character lowercasing coincides with Python's. -/
def pyLower (s : String) : String := String.mk (s.toList.map Char.toLower)

/-- The filter predicate `p.suffix.lower() in VIDEO_EXTS`. -/
def isVideoCandidate (p : PyPath) : Bool :=
  VIDEO_EXTS.contains (pyLower (pySuffix p.name))

def discover (entries : List Entry) : List Entry :=
  entries.filter (fun e => isVideoCandidate e.path)

/-! ## Size formatting (optimizer.py lines 40-48)

Python floats are modelled as exact rationals: for a byte count below
2^53 the divisions `n / 1024^k` are exact in double precision, and
`f"{x:.1f}"` is correct rounding of the decimal value with ties to even,
which `roundHalfEven` reproduces. -/

/-- Round to the nearest integer, ties to the even integer
(IEEE-754 / Python `format(x, ".1f")` tie-breaking, scaled). -/
def roundHalfEven (q : ℚ) : ℤ :=
  let f := ⌊q⌋
  if q - f < 1/2 then f
  else if 1/2 < q - f then f + 1
  else if f % 2 = 0 then f else f + 1

/-- `f"{q:.1f}"` for a nonnegative rational. -/
def oneDecimalRepr (q : ℚ) : String :=
  let t := (roundHalfEven (10 * q)).toNat
  toString (t / 10) ++ "." ++ toString (t % 10)

def format_size (size_bytes : Nat) : String :=
  if size_bytes < 1024 then
    toString size_bytes ++ " B"
  else if size_bytes < 1024 * 1024 then
    oneDecimalRepr ((size_bytes : ℚ) / 1024) ++ " KB"
  else if size_bytes < 1024 * 1024 * 1024 then
    oneDecimalRepr ((size_bytes : ℚ) / (1024 * 1024)) ++ " MB"
  else
    oneDecimalRepr ((size_bytes : ℚ) / (1024 * 1024 * 1024)) ++ " GB"

/-- The unit (in bytes) that `format_size` selects for a byte count. -/
def sizeUnit (n : Nat) : Nat :=
  if n < 1024 then 1
  else if n < 1024 * 1024 then 1024
  else if n < 1024 * 1024 * 1024 then 1024 * 1024
  else 1024 * 1024 * 1024

/-- The numeric value displayed by `format_size` (the integer count in the
bytes branch, otherwise the one-decimal rounding of `n / unit`). -/
def sizeDisplayValue (n : Nat) : ℚ :=
  if n < 1024 then (n : ℚ)
  else if n < 1024 * 1024 then
    (roundHalfEven (10 * ((n : ℚ) / 1024)) : ℚ) / 10
  else if n < 1024 * 1024 * 1024 then
    (roundHalfEven (10 * ((n : ℚ) / (1024 * 1024))) : ℚ) / 10
  else (roundHalfEven (10 * ((n : ℚ) / (1024 * 1024 * 1024))) : ℚ) / 10

/-- The textual unit suffix `format_size` attaches for a given unit. -/
def unitSuffix (u : Nat) : String :=
  if u = 1 then " B"
  else if u = 1024 then " KB"
  else if u = 1024 * 1024 then " MB"
  else " GB"

/-- The numeric part of the `format_size` string. -/
def renderValue (n : Nat) : String :=
  if n < 1024 then toString n
  else if n < 1024 * 1024 then oneDecimalRepr ((n : ℚ) / 1024)
  else if n < 1024 * 1024 * 1024 then oneDecimalRepr ((n : ℚ) / (1024 * 1024))
  else oneDecimalRepr ((n : ℚ) / (1024 * 1024 * 1024))

/-! ## Scale filter and encode command (optimizer.py lines 115-158) -/

/-- The `-vf` scale filter string of `build_ffmpeg_cmd` (lines 117-123). -/
def scale_filter (maxHeight : Option Int) : String :=
  match maxHeight with
  | none => "scale=trunc(iw/2)*2:trunc(ih/2)*2"
  | some h =>
    "scale=trunc(min(iw\\,iw*" ++ toString h ++ "/ih)/2)*2:trunc(min(ih\\,"
      ++ toString h ++ ")/2)*2"

/-- The full argument list built by `build_ffmpeg_cmd` (lines 125-158). -/
def build_ffmpeg_cmd (src dst : String) : List String :=
  ["ffmpeg", "-y", "-i", src, "-vf", scale_filter MAX_HEIGHT,
   "-c:v", "libx264", "-preset", PRESET, "-crf", toString CRF,
   "-tune", "film", "-profile:v", "main", "-level", "4.0",
   "-pix_fmt", "yuv420p"]
  ++ (match TARGET_FPS with
      | some fps => ["-r", toString fps]
      | none => [])
  ++ ["-c:a", "aac", "-b:a", AUDIO_BITRATE, "-movflags", "+faststart", dst]

/-- ffmpeg `trunc`: truncation toward zero. -/
def truncQ (q : ℚ) : ℤ := if 0 ≤ q then ⌊q⌋ else ⌈q⌉

/-- Output width computed by the `MAX_HEIGHT = some h` scale filter,
`trunc(min(iw, iw*h/ih)/2)*2`, for input dimensions `iw × ih`. -/
def scaleW (h iw ih : ℚ) : ℤ := truncQ (min iw (iw * h / ih) / 2) * 2

/-- Output height computed by the `MAX_HEIGHT = some h` scale filter,
`trunc(min(ih, h)/2)*2`. -/
def scaleH (h : ℚ) (_iw : ℚ) (ih : ℚ) : ℤ := truncQ (min ih h / 2) * 2

/-! ## Duration probe (optimizer.py lines 51-73)

`get_duration_seconds` runs `ffprobe` with `capture_output` and a 30 s
timeout (a timeout raises), checks the return code and the stripped
stdout, then parses with Python `float`.  The parser below models
`float()` on finite decimal literals — `sign? (digits [. digits?] | .
digits) ([eE] sign? digits)?` — the forms ffprobe can print
(`inf`/`nan`/underscore forms are not modelled, they have no rational
value). -/

def digitsToNat : List Char → Option Nat
  | [] => some 0
  | c :: cs =>
    if c.isDigit then
      (digitsToNat cs).map (fun v => (c.toNat - 48) * 10 ^ cs.length + v)
    else
      none

/-- A nonempty all-digit run, as a natural number. -/
def parseDigits (cs : List Char) : Option Nat :=
  if cs.isEmpty then none else digitsToNat cs

/-- Strip one optional leading sign; `true` means negative. -/
def splitSign : List Char → Bool × List Char
  | '-' :: cs => (true, cs)
  | '+' :: cs => (false, cs)
  | cs => (false, cs)

/-- Mantissa: `digits`, `digits.`, `digits.digits` or `.digits`. -/
def parseMantissa (cs : List Char) : Option ℚ :=
  match cs.span (fun c => !(c = '.')) with
  | (intPart, []) => (parseDigits intPart).map (fun v => (v : ℚ))
  | (intPart, _ :: fracPart) =>
    if intPart.isEmpty ∧ fracPart.isEmpty then none
    else if (intPart.all Char.isDigit) ∧ (fracPart.all Char.isDigit) then
      (digitsToNat (intPart ++ fracPart)).map
        (fun v => (v : ℚ) / 10 ^ fracPart.length)
    else none

/-- Exponent after `e`/`E`: optional sign then digits. -/
def parseExponent (cs : List Char) : Option ℤ :=
  match splitSign cs with
  | (neg, ds) => (parseDigits ds).map (fun v => if neg then -(v : ℤ) else v)

/-- Python `float(s)` on a stripped string, as an exact rational. -/
def pyFloat (s : String) : Option ℚ :=
  match splitSign s.toList with
  | (neg, rest) =>
    match rest.span (fun c => !(c = 'e' || c = 'E')) with
    | (mantPart, expPart) => do
      let m ← parseMantissa mantPart
      let e ← match expPart with
        | [] => some (0 : ℤ)
        | _ :: ecs => parseExponent ecs
      let v := m * (10 : ℚ) ^ e
      some (if neg then -v else v)

/-! ## Subprocess model

Each external invocation's outcome is part of the environment.  The main
encode (`run`, `check=True`, no timeout) can exit zero, exit non-zero
(`CalledProcessError`) or miss the binary (`FileNotFoundError`).  The
probe either times out (`TimeoutExpired`, uncaught) or completes with a
return code and stdout.  The thumbnail encode can succeed, exit non-zero,
miss the binary, or time out. -/

inductive EncodeOutcome where
  | ok
  | calledProcessError
  | fileNotFound
  deriving DecidableEq, Repr

inductive ProbeOutcome where
  | timeout
  | done (returncode : Int) (stdout : String)
  deriving DecidableEq, Repr

inductive ThumbOutcome where
  | ok
  | calledProcessError
  | fileNotFound
  | timeout
  deriving DecidableEq, Repr

/-- Uncaught Python exceptions that abort the whole run. -/
inductive Fatal where
  | inputDirMissing
  | encodeFileNotFound
  | probeTimeout
  | thumbTimeout
  deriving DecidableEq, Repr

/-- Observable events of a run (prints, plus the fact that the thumbnail
command was attempted, with the seek second it was launched with). -/
inductive Event where
  | processing (srcName : String)
  | sizeReport (orig new : Nat)
  | thumbAttempted (seek : ℚ)
  | thumbWarning (srcName : String)
  | thumbOk (thumbName : String)
  | encodeError (srcName : String)
  | noVideos
  | finalMessage
  deriving DecidableEq, Repr

def Event.isThumbAttempt : Event → Bool
  | .thumbAttempted _ => true
  | _ => false

def isPyWhitespace (c : Char) : Bool :=
  c = ' ' || c = '\t' || c = '\n' || c = '\r' || c = '\x0b' || c = '\x0c'

/-- Python `str.strip()` with no argument: remove ASCII whitespace from
both ends (the tool output at hand never carries the exotic Unicode
spaces Python would also strip). -/
def pyStrip (s : String) : String :=
  String.mk (((s.toList.dropWhile isPyWhitespace).reverse.dropWhile
      isPyWhitespace).reverse)

/-- `get_duration_seconds` (lines 51-73): `None` when the tool exits
non-zero or stdout strips to empty, else `float(stdout.strip())` with
`ValueError` mapped to `None`; a probe timeout propagates. -/
def get_duration_seconds (probe : ProbeOutcome) : Except Fatal (Option ℚ) :=
  match probe with
  | .timeout => .error .probeTimeout
  | .done rc out =>
    if rc ≠ 0 ∨ pyStrip out = "" then .ok none
    else .ok (pyFloat (pyStrip out))

/-- The seek second chosen in `extract_thumbnail` (lines 78-82):
`0` when the duration is unknown or non-positive, else half of it. -/
def seekSec (duration : Option ℚ) : ℚ :=
  match duration with
  | none => 0
  | some d => if d ≤ 0 then 0 else d / 2

/-- The thumbnail ffmpeg argument list (lines 86-106); the seek value is
carried as the rational it renders. -/
def thumbnail_cmd (seek : ℚ) (src dst : String) : List String :=
  ["ffmpeg", "-y", "-ss", toString seek, "-i", src, "-vframes", "1",
   "-vf",
   "scale=" ++ toString THUMBNAIL_WIDTH ++ ":" ++ toString THUMBNAIL_HEIGHT
     ++ ":force_original_aspect_ratio=increase,crop="
     ++ toString THUMBNAIL_WIDTH ++ ":" ++ toString THUMBNAIL_HEIGHT,
   "-c:v", "libwebp", "-quality", toString THUMBNAIL_QUALITY, dst]

/-! ## Derived output paths (optimizer.py lines 173-174) -/

def pathJoin (dir : PyPath) (filename : String) : PyPath :=
  ⟨dir.parts ++ [filename]⟩

/-- `dst = OUTPUT_DIR / f"{src.stem}.mp4"`. -/
def dstPath (src : PyPath) : PyPath :=
  pathJoin OUTPUT_DIR (pyStem src.name ++ ".mp4")

/-- `thumb_path = OUTPUT_DIR / f"{src.stem}{THUMBNAIL_EXT}"`. -/
def thumbPath (src : PyPath) : PyPath :=
  pathJoin OUTPUT_DIR (pyStem src.name ++ THUMBNAIL_EXT)

/-! ## Per-file environment and the main loop (optimizer.py lines 76-112
and 161-194) -/

/-- Everything the filesystem and the external tools decide for one
candidate entry of the recursive listing. -/
structure FileEnv where
  entry : Entry
  origSize : Nat
  newSize : Nat
  encode : EncodeOutcome
  probe : ProbeOutcome
  thumb : ThumbOutcome
  deriving DecidableEq, Repr

/-- `extract_thumbnail` (lines 76-112): probe the duration (a probe
timeout propagates), pick the seek point, run the thumbnail command;
`CalledProcessError` and `FileNotFoundError` are caught and yield
`false`, success yields `true`, a timeout propagates. -/
def extract_thumbnail (env : FileEnv) : Except Fatal (Bool × List Event) := do
  let duration ← get_duration_seconds env.probe
  let seek := seekSec duration
  match env.thumb with
  | .ok => .ok (true, [.thumbAttempted seek])
  | .calledProcessError =>
    .ok (false, [.thumbAttempted seek, .thumbWarning env.entry.path.name])
  | .fileNotFound =>
    .ok (false, [.thumbAttempted seek, .thumbWarning env.entry.path.name])
  | .timeout => .error .thumbTimeout

/-- One iteration of the `for src in videos` loop (lines 172-192): print,
run the encode under `try`, and on success report sizes and attempt the
thumbnail; only `CalledProcessError` from the encode is caught. -/
def processFile (env : FileEnv) : Except Fatal (List Event) :=
  match env.encode with
  | .calledProcessError =>
    .ok [.processing env.entry.path.name, .encodeError env.entry.path.name]
  | .fileNotFound => .error .encodeFileNotFound
  | .ok => do
    let sizeEvents :=
      if env.origSize > 0 then [Event.sizeReport env.origSize env.newSize]
      else []
    let (thumbDone, thumbEvents) ← extract_thumbnail env
    let doneEvents :=
      if thumbDone then [Event.thumbOk (thumbPath env.entry.path).name]
      else []
    .ok ([Event.processing env.entry.path.name]
          ++ sizeEvents ++ thumbEvents ++ doneEvents)

/-- `main` (lines 161-194): fail if the input directory is missing,
filter the recursive listing by extension, report when nothing matches,
otherwise process every candidate in order and print the final message. -/
def main (inputDirExists : Bool) (files : List FileEnv) :
    Except Fatal (List Event) :=
  if inputDirExists = false then .error .inputDirMissing
  else
    let videos := files.filter (fun f => isVideoCandidate f.entry.path)
    if videos.isEmpty then .ok [.noVideos]
    else do
      let eventLists ← videos.mapM processFile
      .ok (eventLists.flatten ++ [.finalMessage])

/-- A two-file batch: the first file's encode exits non-zero, the second
file's pipeline succeeds end to end (probe exits non-zero, so its
duration is unknown and the thumbnail seeks to the start). -/
def sampleBatch : List FileEnv :=
  [⟨⟨⟨["a.mp4"]⟩, false⟩, 100, 50, .calledProcessError, .done 1 "", .ok⟩,
   ⟨⟨⟨["b.mov"]⟩, false⟩, 100, 50, .ok, .done 1 "", .ok⟩]

/-! ## Helper lemmas -/

theorem rfindDot_eq_none {cs : List Char} (h : '.' ∉ cs) : rfindDot cs = none := by
  induction cs with
  | nil => rfl
  | cons c cs ih =>
    simp only [List.mem_cons, not_or] at h
    simp [rfindDot, ih h.2, Ne.symm h.1]

theorem rfindDot_append_dot (cs ds : List Char) (h : '.' ∉ ds) :
    rfindDot (cs ++ '.' :: ds) = some cs.length := by
  induction cs with
  | nil => simp [rfindDot, rfindDot_eq_none h]
  | cons c cs ih => simp [rfindDot, ih]

theorem pyStemCs_append_ext (cs ds : List Char) (hcs : cs ≠ []) (hds : ds ≠ [])
    (h : '.' ∉ ds) : pyStemCs (cs ++ '.' :: ds) = cs := by
  have hlen : (cs ++ '.' :: ds).length = cs.length + ds.length + 1 := by
    simp [List.length_append]
    omega
  have hcond : 0 < cs.length ∧ cs.length < (cs ++ '.' :: ds).length - 1 := by
    refine ⟨List.length_pos.mpr hcs, ?_⟩
    have : 0 < ds.length := List.length_pos.mpr hds
    omega
  rw [pyStemCs, rfindDot_append_dot cs ds h]
  show (if 0 < cs.length ∧ cs.length < (cs ++ '.' :: ds).length - 1 then
          List.take cs.length (cs ++ '.' :: ds)
        else cs ++ '.' :: ds) = cs
  rw [if_pos hcond]
  exact List.take_left cs ('.' :: ds)

theorem pyStem_append_ext (s ext : String) (hs : s ≠ "")
    (hext : ∃ ds : List Char, ext.toList = '.' :: ds ∧ ds ≠ [] ∧ '.' ∉ ds) :
    pyStem (s ++ ext) = s := by
  obtain ⟨ds, hed, hne, hnd⟩ := hext
  have hcs : s.toList ≠ [] := by
    intro hnil
    exact hs (congrArg String.mk hnil)
  have htl : (s ++ ext).toList = s.toList ++ '.' :: ds := by
    simp [String.toList] at hed ⊢
    simp [hed]
  have : pyStem (s ++ ext) = String.mk s.toList := by
    rw [pyStem, htl, pyStemCs_append_ext _ _ hcs hne hnd]
  rw [this]
  rfl

theorem pyStemCs_ne_nil_of_suffix {name : List Char} (h : pySuffixCs name ≠ []) :
    pyStemCs name ≠ [] := by
  cases hr : rfindDot name with
  | none => simp [pySuffixCs, hr] at h
  | some i =>
    by_cases hc : 0 < i ∧ i < name.length - 1
    · simp only [pyStemCs, hr, if_pos hc]
      intro hnil
      rw [List.take_eq_nil_iff] at hnil
      rcases hnil with h0 | hname
      · omega
      · rw [hname] at hr
        simp [rfindDot] at hr
    · simp [pySuffixCs, hr, hc] at h

theorem pyStem_ne_empty_of_candidate (p : PyPath) (h : isVideoCandidate p = true) :
    pyStem p.name ≠ "" := by
  have hsuf : pySuffixCs p.name.toList ≠ [] := by
    intro hnil
    rw [isVideoCandidate] at h
    rw [pySuffix, hnil] at h
    exact absurd h (by decide)
  intro hempty
  exact pyStemCs_ne_nil_of_suffix hsuf (congrArg String.data hempty)

theorem pathJoin_name (dir : PyPath) (f : String) : (pathJoin dir f).name = f := by
  simp [pathJoin, PyPath.name, List.getLastD_concat]

/-! ## Claim theorems -/

/-- **C7.** Discovery selects, from the recursive listing of the input
directory, exactly those entries whose lowercased extension belongs to
`VIDEO_EXTS = {.mp4, .mov, .mkv, .webm, .avi, .m4v}`; in particular a
directory listing `a.MP4, b.mkv, c.txt, d.mov` yields exactly
`a.MP4, b.mkv, d.mov`. -/
theorem discovery_selects_video_extensions (entries : List Entry) :
    (∀ e : Entry, e ∈ discover entries ↔
        e ∈ entries ∧ pyLower (pySuffix e.path.name) ∈ VIDEO_EXTS) ∧
    discover [⟨⟨["a.MP4"]⟩, false⟩, ⟨⟨["b.mkv"]⟩, false⟩,
              ⟨⟨["c.txt"]⟩, false⟩, ⟨⟨["d.mov"]⟩, false⟩]
      = [⟨⟨["a.MP4"]⟩, false⟩, ⟨⟨["b.mkv"]⟩, false⟩, ⟨⟨["d.mov"]⟩, false⟩] := by
  constructor
  · intro e
    simp only [discover, List.mem_filter, isVideoCandidate]
    rw [List.elem_iff]
  · decide

/-- **C7 witness.** The concrete four-entry directory scenario. -/
theorem discovery_selects_video_extensions_witness :
    (⟨⟨["a.MP4"]⟩, false⟩ : Entry) ∈ discover [⟨⟨["a.MP4"]⟩, false⟩]
      ∧ pyLower (pySuffix "a.MP4") ∈ VIDEO_EXTS :=
  ⟨((discovery_selects_video_extensions [⟨⟨["a.MP4"]⟩, false⟩]).1
      ⟨⟨["a.MP4"]⟩, false⟩).mpr ⟨by decide, by decide⟩,
   by decide⟩

/-- **C9.** Distinct candidate inputs can collide on both derived output
paths: `sub1/a.mp4` and `sub2/a.mp4` (equally named files in different
subdirectories), and `a.mp4` and `a.mov` (equal stems, different video
extensions), are distinct paths that pass the discovery filter yet are
assigned identical transcode and thumbnail destinations, so the later
one's outputs overwrite the earlier one's. -/
theorem output_path_collision :
    ((⟨["sub1", "a.mp4"]⟩ : PyPath) ≠ ⟨["sub2", "a.mp4"]⟩
      ∧ isVideoCandidate ⟨["sub1", "a.mp4"]⟩ = true
      ∧ isVideoCandidate ⟨["sub2", "a.mp4"]⟩ = true
      ∧ dstPath ⟨["sub1", "a.mp4"]⟩ = dstPath ⟨["sub2", "a.mp4"]⟩
      ∧ thumbPath ⟨["sub1", "a.mp4"]⟩ = thumbPath ⟨["sub2", "a.mp4"]⟩)
    ∧ ((⟨["a.mp4"]⟩ : PyPath) ≠ ⟨["a.mov"]⟩
      ∧ isVideoCandidate ⟨["a.mp4"]⟩ = true
      ∧ isVideoCandidate ⟨["a.mov"]⟩ = true
      ∧ dstPath ⟨["a.mp4"]⟩ = dstPath ⟨["a.mov"]⟩
      ∧ thumbPath ⟨["a.mp4"]⟩ = thumbPath ⟨["a.mov"]⟩) := by
  decide

/-- **C10.** The discovery filter tests only the lowercased suffix of
each entry of the recursive glob, never whether the entry is a regular
file: a directory named `x.mp4` is kept in the candidate list (while a
file `y.txt` is dropped). -/
theorem directory_entry_becomes_candidate :
    discover [⟨⟨["x.mp4"]⟩, true⟩, ⟨⟨["y.txt"]⟩, false⟩]
        = [⟨⟨["x.mp4"]⟩, true⟩]
      ∧ (⟨⟨["x.mp4"]⟩, true⟩ : Entry).isDir = true := by
  decide

/-- **C8.** Every processed input yields a transcoded video path
`OUTPUT_DIR / (stem ++ ".mp4")` and a thumbnail path
`OUTPUT_DIR / (stem ++ ".webp")`, and both output filenames have exactly
the input's stem. -/
theorem output_paths_share_input_stem (src : PyPath)
    (h : isVideoCandidate src = true) :
    dstPath src = pathJoin OUTPUT_DIR (pyStem src.name ++ ".mp4")
      ∧ thumbPath src = pathJoin OUTPUT_DIR (pyStem src.name ++ ".webp")
      ∧ pyStem (dstPath src).name = pyStem src.name
      ∧ pyStem (thumbPath src).name = pyStem src.name := by
  have hs : pyStem src.name ≠ "" := pyStem_ne_empty_of_candidate src h
  refine ⟨rfl, rfl, ?_, ?_⟩
  · rw [dstPath, pathJoin_name]
    exact pyStem_append_ext _ _ hs ⟨['m', 'p', '4'], by decide⟩
  · rw [thumbPath, pathJoin_name]
    exact pyStem_append_ext _ _ hs ⟨['w', 'e', 'b', 'p'], by decide⟩

/-- **C8 witness.** Instantiated at the input `clip.mkv`. -/
theorem output_paths_share_input_stem_witness :
    dstPath ⟨["clip.mkv"]⟩ = pathJoin OUTPUT_DIR (pyStem "clip.mkv" ++ ".mp4")
      ∧ thumbPath ⟨["clip.mkv"]⟩
          = pathJoin OUTPUT_DIR (pyStem "clip.mkv" ++ ".webp")
      ∧ pyStem (dstPath ⟨["clip.mkv"]⟩).name = pyStem "clip.mkv"
      ∧ pyStem (thumbPath ⟨["clip.mkv"]⟩).name = pyStem "clip.mkv" :=
  output_paths_share_input_stem ⟨["clip.mkv"]⟩ (by decide)

theorem roundHalfEven_close (q : ℚ) : |(roundHalfEven q : ℚ) - q| ≤ 1 / 2 := by
  simp only [roundHalfEven]
  have h0 : (⌊q⌋ : ℚ) ≤ q := Int.floor_le q
  have h1 : q < ⌊q⌋ + 1 := Int.lt_floor_add_one q
  split_ifs with ha hb hc <;> rw [abs_le] <;> constructor <;> push_cast <;>
    linarith

theorem roundHalfEven_intCast (z : ℤ) : roundHalfEven (z : ℚ) = z := by
  simp only [roundHalfEven, Int.floor_intCast]
  have h : (z : ℚ) - z = 0 := by ring
  rw [h]
  norm_num

theorem oneDecimalRepr_eq (q : ℚ) (z : ℤ) (h : 10 * q = (z : ℚ)) :
    oneDecimalRepr q
      = toString (z.toNat / 10) ++ "." ++ toString (z.toNat % 10) := by
  simp only [oneDecimalRepr]
  rw [h, roundHalfEven_intCast]

theorem oneDecimal_reconstructs (x u : ℚ) (hu : 0 < u) :
    |(roundHalfEven (10 * (x / u)) : ℚ) / 10 * u - x| ≤ u / 20 := by
  have h := roundHalfEven_close (10 * (x / u))
  have hne : u ≠ 0 := ne_of_gt hu
  have e : (roundHalfEven (10 * (x / u)) : ℚ) / 10 * u - x
      = (u / 10) * ((roundHalfEven (10 * (x / u)) : ℚ) - 10 * (x / u)) := by
    field_simp
    ring
  rw [e, abs_mul, abs_of_pos (by positivity : (0 : ℚ) < u / 10)]
  calc u / 10 * |(roundHalfEven (10 * (x / u)) : ℚ) - 10 * (x / u)|
      ≤ u / 10 * (1 / 2) := by
        exact mul_le_mul_of_nonneg_left h (by positivity)
    _ = u / 20 := by ring

theorem get_duration_seconds_done (rc : Int) (out : String) :
    ∃ r : Option ℚ, get_duration_seconds (.done rc out) = .ok r := by
  by_cases h : rc ≠ 0 ∨ pyStrip out = ""
  · exact ⟨none, by simp [get_duration_seconds, h]⟩
  · exact ⟨pyFloat (pyStrip out), by simp [get_duration_seconds, h]⟩

/-- **C5.** `get_duration_seconds` returns `None` exactly when the probe
exits non-zero, its stdout strips to empty, or the stripped stdout is not
parseable as a float; otherwise it returns the parsed stdout (and a
completed probe never raises). -/
theorem duration_probe_result (rc : Int) (out : String) :
    (get_duration_seconds (.done rc out) = .ok none ↔
        rc ≠ 0 ∨ pyStrip out = "" ∨ pyFloat (pyStrip out) = none)
      ∧ (∀ q : ℚ, rc = 0 → pyFloat (pyStrip out) = some q →
          get_duration_seconds (.done rc out) = .ok (some q))
      ∧ ∃ r : Option ℚ, get_duration_seconds (.done rc out) = .ok r := by
  refine ⟨?_, ?_, get_duration_seconds_done rc out⟩
  · by_cases h1 : rc ≠ 0 ∨ pyStrip out = ""
    · simp only [get_duration_seconds, if_pos h1]
      simp only [eq_self_iff_true, true_iff]
      tauto
    · push_neg at h1
      obtain ⟨hrc, htrim⟩ := h1
      simp [get_duration_seconds, hrc, htrim]
  · intro q hrc hq
    have htrim : pyStrip out ≠ "" := by
      intro he
      rw [he] at hq
      have hnone : pyFloat "" = none := by decide
      rw [hnone] at hq
      exact Option.noConfusion hq
    simp [get_duration_seconds, hrc, htrim, hq]

/-- **C5 witness.** The probe exiting zero with stdout `"12.5\n"` yields
the duration `12.5`. -/
theorem duration_probe_result_witness :
    get_duration_seconds (.done 0 "12.5\n") = .ok (some (25 / 2)) :=
  (duration_probe_result 0 "12.5\n").2.1 (25 / 2) rfl (by
    have h1 : pyStrip "12.5\n" = "12.5" := by decide
    have h0 : pyFloat "12.5"
        = some (((125 : ℕ) : ℚ) / 10 ^ (1 : ℕ) * (10 : ℚ) ^ (0 : ℤ)) := rfl
    rw [h1, h0]
    norm_num)

/-- **C6.** The thumbnail seek point is half the probed duration when the
probe returns a positive number and `0` when it returns `None` or a
non-positive value — `None ↦ 0`, `10 ↦ 5`, `0 ↦ 0`, never negative — and
`extract_thumbnail` launches its command at exactly that seek point. -/
theorem thumbnail_seek_point :
    seekSec none = 0 ∧ seekSec (some 10) = 5 ∧ seekSec (some 0) = 0
      ∧ (∀ d : ℚ, 0 < d → seekSec (some d) = d / 2)
      ∧ (∀ d : ℚ, d ≤ 0 → seekSec (some d) = 0)
      ∧ (∀ dur : Option ℚ, 0 ≤ seekSec dur)
      ∧ (∀ env : FileEnv, ∀ dur : Option ℚ, ∀ b : Bool, ∀ evs : List Event,
          get_duration_seconds env.probe = .ok dur →
          extract_thumbnail env = .ok (b, evs) →
          Event.thumbAttempted (seekSec dur) ∈ evs) := by
  refine ⟨rfl, by norm_num [seekSec], rfl, ?_, ?_, ?_, ?_⟩
  · intro d hd
    simp [seekSec, not_le.mpr hd]
  · intro d hd
    simp [seekSec, hd]
  · intro dur
    cases dur with
    | none => simp [seekSec]
    | some d =>
      simp only [seekSec]
      split
      · exact le_refl 0
      · linarith
  · intro env dur b evs hdur hext
    rw [extract_thumbnail, hdur] at hext
    cases ht : env.thumb <;> rw [ht] at hext
    · have h2 : (Except.ok (true, [Event.thumbAttempted (seekSec dur)]) :
          Except Fatal (Bool × List Event)) = .ok (b, evs) := hext
      injection h2 with h3
      injection h3 with hb hevs
      rw [← hevs]
      simp
    · have h2 : (Except.ok (false, [Event.thumbAttempted (seekSec dur),
          Event.thumbWarning env.entry.path.name]) :
          Except Fatal (Bool × List Event)) = .ok (b, evs) := hext
      injection h2 with h3
      injection h3 with hb hevs
      rw [← hevs]
      simp
    · have h2 : (Except.ok (false, [Event.thumbAttempted (seekSec dur),
          Event.thumbWarning env.entry.path.name]) :
          Except Fatal (Bool × List Event)) = .ok (b, evs) := hext
      injection h2 with h3
      injection h3 with hb hevs
      rw [← hevs]
      simp
    · exact absurd hext (by
        intro hcontra
        exact Except.noConfusion
          (show (Except.error Fatal.thumbTimeout :
              Except Fatal (Bool × List Event)) = .ok (b, evs) from hcontra))

/-- **C6 witness.** An unknown duration leads to a thumbnail attempt at
the start of the video. -/
theorem thumbnail_seek_point_witness :
    Event.thumbAttempted (seekSec none) ∈
      [Event.thumbAttempted (seekSec none)] :=
  thumbnail_seek_point.2.2.2.2.2.2
    ⟨⟨⟨["a.mp4"]⟩, false⟩, 100, 50, .ok, .done 1 "", .ok⟩ none true
    [Event.thumbAttempted (seekSec none)] rfl rfl

/-- **C3.** For a probe that does not time out, `extract_thumbnail`
returns `false` (instead of raising) exactly for the two caught failure
modes — the tool exiting non-zero and the tool binary being absent —
returns `true` on success, and a timeout of the thumbnail subprocess is
not caught: it propagates as the fatal `thumbTimeout`. -/
theorem thumbnail_error_handling (env : FileEnv) (hp : env.probe ≠ .timeout) :
    (env.thumb = .calledProcessError ∨ env.thumb = .fileNotFound →
        ∃ evs, extract_thumbnail env = .ok (false, evs))
      ∧ (env.thumb = .ok → ∃ evs, extract_thumbnail env = .ok (true, evs))
      ∧ (env.thumb = .timeout →
          extract_thumbnail env = .error .thumbTimeout) := by
  obtain ⟨rc, out, hpo⟩ : ∃ rc out, env.probe = .done rc out := by
    cases hpo : env.probe with
    | timeout => exact absurd hpo hp
    | done rc out => exact ⟨rc, out, rfl⟩
  obtain ⟨dur, hdur⟩ := get_duration_seconds_done rc out
  rw [← hpo] at hdur
  refine ⟨?_, ?_, ?_⟩
  · rintro (ht | ht) <;>
      exact ⟨[Event.thumbAttempted (seekSec dur),
              Event.thumbWarning env.entry.path.name],
        by rw [extract_thumbnail, hdur, ht]; exact rfl⟩
  · intro ht
    exact ⟨[Event.thumbAttempted (seekSec dur)],
      by rw [extract_thumbnail, hdur, ht]; exact rfl⟩
  · intro ht
    rw [extract_thumbnail, hdur, ht]
    exact rfl

/-- **C3 witness.** A concrete file whose thumbnail tool exits non-zero:
`extract_thumbnail` returns `false` rather than raising. -/
theorem thumbnail_error_handling_witness :
    ∃ evs, extract_thumbnail
        ⟨⟨⟨["a.mp4"]⟩, false⟩, 100, 50, .ok, .done 1 "",
          .calledProcessError⟩ = .ok (false, evs) :=
  (thumbnail_error_handling
      ⟨⟨⟨["a.mp4"]⟩, false⟩, 100, 50, .ok, .done 1 "",
        .calledProcessError⟩ (by decide)).1 (Or.inl rfl)

/-- **C4.** `format_size` renders a value and a binary-prefix unit
selected at 1024 boundaries; the displayed value times its unit
reconstructs the byte count within one-half of the last rendered decimal
digit (`unit / 20`); and the boundary cases are `1023 ↦ "1023 B"`,
`1024 ↦ "1.0 KB"`, `1024² ↦ "1.0 MB"`, `1024³ ↦ "1.0 GB"`. -/
theorem format_size_reconstructs (n : Nat) :
    format_size n = renderValue n ++ unitSuffix (sizeUnit n)
      ∧ |sizeDisplayValue n * (sizeUnit n : ℚ) - n| ≤ (sizeUnit n : ℚ) / 20
      ∧ (n < 1024 → sizeUnit n = 1)
      ∧ (1024 ≤ n → n < 1024 * 1024 → sizeUnit n = 1024)
      ∧ (1024 * 1024 ≤ n → n < 1024 * 1024 * 1024 →
          sizeUnit n = 1024 * 1024)
      ∧ (1024 * 1024 * 1024 ≤ n → sizeUnit n = 1024 * 1024 * 1024)
      ∧ format_size 1023 = "1023 B"
      ∧ format_size 1024 = "1.0 KB"
      ∧ format_size (1024 * 1024) = "1.0 MB"
      ∧ format_size (1024 * 1024 * 1024) = "1.0 GB" := by
  have hkb : format_size 1024 = "1.0 KB" := by
    have h1 : oneDecimalRepr (((1024 : ℕ) : ℚ) / 1024) = "1.0" := by
      rw [oneDecimalRepr_eq (((1024 : ℕ) : ℚ) / 1024) 10 (by push_cast; ring)]
      rfl
    unfold format_size
    rw [if_neg (by norm_num), if_pos (by norm_num), h1]
    rfl
  have hmb : format_size (1024 * 1024) = "1.0 MB" := by
    have h1 : oneDecimalRepr (((1024 * 1024 : ℕ) : ℚ) / (1024 * 1024))
        = "1.0" := by
      rw [oneDecimalRepr_eq (((1024 * 1024 : ℕ) : ℚ) / (1024 * 1024)) 10
        (by push_cast; ring)]
      rfl
    unfold format_size
    rw [if_neg (by norm_num), if_neg (by norm_num), if_pos (by norm_num), h1]
    rfl
  have hgb : format_size (1024 * 1024 * 1024) = "1.0 GB" := by
    have h1 : oneDecimalRepr
        (((1024 * 1024 * 1024 : ℕ) : ℚ) / (1024 * 1024 * 1024)) = "1.0" := by
      rw [oneDecimalRepr_eq
        (((1024 * 1024 * 1024 : ℕ) : ℚ) / (1024 * 1024 * 1024)) 10
        (by push_cast; ring)]
      rfl
    unfold format_size
    rw [if_neg (by norm_num), if_neg (by norm_num), if_neg (by norm_num), h1]
    rfl
  refine ⟨?_, ?_, ?_, ?_, ?_, ?_, rfl, hkb, hmb, hgb⟩
  · by_cases h1 : n < 1024
    · have hu : sizeUnit n = 1 := by simp [sizeUnit, h1]
      rw [hu]
      simp only [format_size, renderValue, unitSuffix, if_pos h1]
      norm_num
    · by_cases h2 : n < 1024 * 1024
      · have hu : sizeUnit n = 1024 := by simp [sizeUnit, h1, h2]
        rw [hu]
        simp only [format_size, renderValue, unitSuffix, if_neg h1, if_pos h2]
        norm_num
      · by_cases h3 : n < 1024 * 1024 * 1024
        · have hu : sizeUnit n = 1024 * 1024 := by simp [sizeUnit, h1, h2, h3]
          rw [hu]
          simp only [format_size, renderValue, unitSuffix, if_neg h1,
            if_neg h2, if_pos h3]
          norm_num
        · have hu : sizeUnit n = 1024 * 1024 * 1024 := by
            simp [sizeUnit, h1, h2, h3]
          rw [hu]
          simp only [format_size, renderValue, unitSuffix, if_neg h1,
            if_neg h2, if_neg h3]
          norm_num
  · by_cases h1 : n < 1024
    · have hu : sizeUnit n = 1 := by simp [sizeUnit, h1]
      have hd : sizeDisplayValue n = (n : ℚ) := by
        simp only [sizeDisplayValue, if_pos h1]
      rw [hd, hu]
      have hc : ((1 : ℕ) : ℚ) = 1 := by norm_num
      rw [hc, mul_one, sub_self, abs_zero]
      norm_num
    · by_cases h2 : n < 1024 * 1024
      · have hu : sizeUnit n = 1024 := by simp [sizeUnit, h1, h2]
        have hd : sizeDisplayValue n
            = (roundHalfEven (10 * ((n : ℚ) / 1024)) : ℚ) / 10 := by
          simp only [sizeDisplayValue, if_neg h1, if_pos h2]
        rw [hd, hu]
        have hc : ((1024 : ℕ) : ℚ) = 1024 := by norm_num
        rw [hc]
        exact oneDecimal_reconstructs (n : ℚ) 1024 (by norm_num)
      · by_cases h3 : n < 1024 * 1024 * 1024
        · have hu : sizeUnit n = 1024 * 1024 := by simp [sizeUnit, h1, h2, h3]
          have hd : sizeDisplayValue n
              = (roundHalfEven (10 * ((n : ℚ) / (1024 * 1024))) : ℚ) / 10 := by
            simp only [sizeDisplayValue, if_neg h1, if_neg h2, if_pos h3]
          rw [hd, hu]
          have hc : ((1024 * 1024 : ℕ) : ℚ) = 1024 * 1024 := by norm_num
          rw [hc]
          exact oneDecimal_reconstructs (n : ℚ) (1024 * 1024) (by norm_num)
        · have hu : sizeUnit n = 1024 * 1024 * 1024 := by
            simp [sizeUnit, h1, h2, h3]
          have hd : sizeDisplayValue n
              = (roundHalfEven (10 * ((n : ℚ) / (1024 * 1024 * 1024))) : ℚ)
                  / 10 := by
            simp only [sizeDisplayValue, if_neg h1, if_neg h2, if_neg h3]
          rw [hd, hu]
          have hc : ((1024 * 1024 * 1024 : ℕ) : ℚ) = 1024 * 1024 * 1024 := by
            norm_num
          rw [hc]
          exact oneDecimal_reconstructs (n : ℚ) (1024 * 1024 * 1024)
            (by norm_num)
  · intro h
    simp [sizeUnit, h]
  · intro h1 h2
    simp [sizeUnit, show ¬n < 1024 by omega, h2]
  · intro h1 h2
    simp [sizeUnit, show ¬n < 1024 by omega, show ¬n < 1024 * 1024 by omega,
      h2]
  · intro h1
    simp [sizeUnit, show ¬n < 1024 by omega, show ¬n < 1024 * 1024 by omega,
      show ¬n < 1024 * 1024 * 1024 by omega]

/-- **C4 witness.** Instantiated at 1536 bytes: the unit is KB and the
displayed value reconstructs the count within the tolerance. -/
theorem format_size_reconstructs_witness :
    |sizeDisplayValue 1536 * (sizeUnit 1536 : ℚ) - 1536|
        ≤ (sizeUnit 1536 : ℚ) / 20
      ∧ sizeUnit 1536 = 1024 :=
  ⟨(format_size_reconstructs 1536).2.1,
   (format_size_reconstructs 1536).2.2.2.1 (by norm_num) (by norm_num)⟩

theorem mapM_except_ok_of_forall {α β ε : Type} (f : α → Except ε β)
    (l : List α) (h : ∀ x ∈ l, ∃ y, f x = .ok y) :
    ∃ ys : List β, l.mapM f = .ok ys := by
  induction l with
  | nil => exact ⟨[], rfl⟩
  | cons a as ih =>
    obtain ⟨y, hy⟩ := h a (List.mem_cons_self a as)
    obtain ⟨ys, hys⟩ := ih (fun x hx => h x (List.mem_cons_of_mem a hx))
    refine ⟨y :: ys, ?_⟩
    rw [List.mapM_cons, hy, hys]
    exact rfl

theorem processFile_encode_failed (f : FileEnv)
    (h : f.encode = .calledProcessError) :
    processFile f = .ok [.processing f.entry.path.name,
                         .encodeError f.entry.path.name] := by
  unfold processFile
  rw [h]

/-- **C2.** When a candidate's encode command exits non-zero the error is
caught: that file's run produces exactly the processing print and the
error log naming the file, with no thumbnail attempt; every other
candidate is still processed in order and the final completion message
follows the concatenated per-file events. -/
theorem per_file_isolation (files : List FileEnv)
    (hne : files.filter (fun f => isVideoCandidate f.entry.path) ≠ [])
    (hok : ∀ f ∈ files.filter (fun f => isVideoCandidate f.entry.path),
        f.encode = .calledProcessError ∨ ∃ evs, processFile f = .ok evs) :
    ∃ eventLists : List (List Event),
      (files.filter (fun f => isVideoCandidate f.entry.path)).mapM processFile
          = .ok eventLists
        ∧ main true files = .ok (eventLists.flatten ++ [.finalMessage])
        ∧ ∀ f ∈ files.filter (fun f => isVideoCandidate f.entry.path),
            f.encode = .calledProcessError →
              processFile f = .ok [.processing f.entry.path.name,
                                   .encodeError f.entry.path.name]
                ∧ ∀ evs : List Event, processFile f = .ok evs →
                    ∀ ev ∈ evs, ev.isThumbAttempt = false := by
  have hall : ∀ f ∈ files.filter (fun f => isVideoCandidate f.entry.path),
      ∃ evs, processFile f = .ok evs := by
    intro f hf
    rcases hok f hf with h | h
    · exact ⟨_, processFile_encode_failed f h⟩
    · exact h
  obtain ⟨ls, hls⟩ := mapM_except_ok_of_forall processFile _ hall
  refine ⟨ls, hls, ?_, ?_⟩
  · unfold main
    rw [if_neg (by simp)]
    rw [if_neg (by simp only [List.isEmpty_iff]; exact hne)]
    rw [hls]
    exact rfl
  · intro f hf henc
    refine ⟨processFile_encode_failed f henc, ?_⟩
    intro evs hevs ev hev
    rw [processFile_encode_failed f henc] at hevs
    injection hevs with h2
    rw [← h2] at hev
    simp only [List.mem_cons, List.not_mem_nil, or_false] at hev
    rcases hev with rfl | rfl <;> rfl

/-- **C2 witness.** On the concrete two-file batch — first encode fails,
second succeeds — the whole run completes with the final message. -/
theorem per_file_isolation_witness :
    ∃ eventLists : List (List Event),
      main true sampleBatch = .ok (eventLists.flatten ++ [.finalMessage]) := by
  obtain ⟨ls, _, hmain, _⟩ := per_file_isolation sampleBatch (by decide) (by
    have hfilter : sampleBatch.filter (fun f => isVideoCandidate f.entry.path)
        = sampleBatch := by decide
    rw [hfilter]
    intro f hf
    simp only [sampleBatch, List.mem_cons, List.not_mem_nil, or_false] at hf
    rcases hf with rfl | rfl
    · exact Or.inl rfl
    · exact Or.inr ⟨_, rfl⟩)
  exact ⟨ls, hmain⟩

theorem scaleH_540_1080 (iw : ℚ) : scaleH 540 iw 1080 = 540 := by
  unfold scaleH truncQ
  have hm : min (1080 : ℚ) 540 = 540 := by
    rw [min_def]
    norm_num
  rw [hm]
  have h2 : (540 : ℚ) / 2 = 270 := by norm_num
  rw [h2, if_pos (by norm_num : (0 : ℚ) ≤ 270)]
  rw [show ((270 : ℚ)) = ((270 : ℤ) : ℚ) by norm_num, Int.floor_intCast]
  norm_num

/-- **C1 counterexample.** For the 1920×1080 input under
`MAX_HEIGHT = 540`, the scale filter's output width is 960 — it exceeds
the configured maximum height, refuting "neither the width nor the
height exceeds the configured maximum height" as stated (the height is
540 as required). -/
theorem scale_width_exceeds_max_counterexample :
    scaleW 540 1920 1080 = 960 ∧ scaleH 540 1920 1080 = 540
      ∧ ¬((scaleW 540 1920 1080 : ℚ) ≤ 540) := by
  have hw : scaleW 540 1920 1080 = 960 := by
    unfold scaleW truncQ
    have hm : min (1920 : ℚ) (1920 * 540 / 1080) = 960 := by
      rw [min_def]
      norm_num
    rw [hm]
    have h2 : (960 : ℚ) / 2 = 480 := by norm_num
    rw [h2, if_pos (by norm_num : (0 : ℚ) ≤ 480)]
    rw [show ((480 : ℚ)) = ((480 : ℤ) : ℚ) by norm_num, Int.floor_intCast]
    norm_num
  refine ⟨hw, scaleH_540_1080 1920, ?_⟩
  rw [hw]
  push_cast
  norm_num

/-- **C1 (amended).** For known input dimensions and a configured maximum
height, the scale filter keeps the output *height* within the maximum,
bounds the output width by the input width and by the proportionally
scaled width `iw*h/ih`, makes both dimensions even, and obtains both by
rounding a single aspect-ratio-preserving rescale `(iw*s, ih*s)`,
`0 < s ≤ 1`, down to the nearest even number; in particular for
`MAX_HEIGHT = 540` and input height 1080 the output height is exactly
540. (The claim's "neither dimension exceeds the maximum height" fails
for the width — see the counterexample.) -/
theorem scale_filter_spec (h iw ih : ℚ) (hh : 0 < h) (hiw : 0 < iw)
    (hih : 0 < ih) :
    (scaleH h iw ih : ℚ) ≤ h
      ∧ (scaleW h iw ih : ℚ) ≤ iw * h / ih
      ∧ (scaleW h iw ih : ℚ) ≤ iw
      ∧ (∃ k : ℤ, scaleW h iw ih = 2 * k)
      ∧ (∃ k : ℤ, scaleH h iw ih = 2 * k)
      ∧ (∃ s : ℚ, 0 < s ∧ s ≤ 1
          ∧ scaleW h iw ih = 2 * ⌊iw * s / 2⌋
          ∧ scaleH h iw ih = 2 * ⌊ih * s / 2⌋)
      ∧ (ih = 1080 → h = 540 → scaleH h iw ih = 540)
      ∧ scale_filter (some 540)
          = "scale=trunc(min(iw\\,iw*540/ih)/2)*2:trunc(min(ih\\,540)/2)*2"
    := by
  have hwpre : 0 < min iw (iw * h / ih) := lt_min hiw (by positivity)
  have hhpre : 0 < min ih h := lt_min hih hh
  have hWfloor : scaleW h iw ih = ⌊min iw (iw * h / ih) / 2⌋ * 2 := by
    unfold scaleW truncQ
    rw [if_pos (le_of_lt (div_pos hwpre two_pos))]
  have hHfloor : scaleH h iw ih = ⌊min ih h / 2⌋ * 2 := by
    unfold scaleH truncQ
    rw [if_pos (le_of_lt (div_pos hhpre two_pos))]
  refine ⟨?_, ?_, ?_, ?_, ?_, ?_, ?_, rfl⟩
  · rw [hHfloor]
    push_cast
    have h1 := Int.floor_le (min ih h / 2)
    have h2 : min ih h ≤ h := min_le_right _ _
    linarith
  · rw [hWfloor]
    push_cast
    have h1 := Int.floor_le (min iw (iw * h / ih) / 2)
    have h2 : min iw (iw * h / ih) ≤ iw * h / ih := min_le_right _ _
    linarith
  · rw [hWfloor]
    push_cast
    have h1 := Int.floor_le (min iw (iw * h / ih) / 2)
    have h2 : min iw (iw * h / ih) ≤ iw := min_le_left _ _
    linarith
  · exact ⟨truncQ (min iw (iw * h / ih) / 2), by unfold scaleW; ring⟩
  · exact ⟨truncQ (min ih h / 2), by unfold scaleH; ring⟩
  · refine ⟨min 1 (h / ih), lt_min one_pos (by positivity),
      min_le_left _ _, ?_, ?_⟩
    · have e : iw * min 1 (h / ih) = min iw (iw * h / ih) := by
        rw [mul_min_of_nonneg _ _ (le_of_lt hiw), mul_one, mul_div_assoc]
      rw [hWfloor, e]
      ring
    · have e : ih * min 1 (h / ih) = min ih h := by
        rw [mul_min_of_nonneg _ _ (le_of_lt hih), mul_one, mul_comm ih
          (h / ih), div_mul_cancel₀ h (ne_of_gt hih)]
      rw [hHfloor, e]
      ring
  · intro hih1080 hh540
    rw [hih1080, hh540]
    exact scaleH_540_1080 iw

/-- **C1 witness.** Instantiated at the 1920×1080 input with
`MAX_HEIGHT = 540`: the output height is within (indeed exactly) 540 and
the width is bounded by the proportionally scaled width. -/
theorem scale_filter_spec_witness :
    (scaleH 540 1920 1080 : ℚ) ≤ 540
      ∧ (scaleW 540 1920 1080 : ℚ) ≤ 1920 * 540 / 1080 :=
  ⟨(scale_filter_spec 540 1920 1080 (by norm_num) (by norm_num)
      (by norm_num)).1,
   (scale_filter_spec 540 1920 1080 (by norm_num) (by norm_num)
      (by norm_num)).2.1⟩

end Optimizer
